import Mathlib

/-!
Verification development for the modal-explorer repository.

This file gives a shallow embedding, in Lean 4, of the music-theory engine
(`src/lib/notes.ts`, `src/lib/modes.ts`, `src/lib/theory-engine.ts`), the
keyboard-layout table (`src/lib/keyboard-mappings.ts`) and the live keyboard
performance state machine (`src/hooks/useKeyboardPiano.ts`), together with
theorems about the embedded definitions.

Conventions of the embedding:
* JavaScript numbers that hold integral values (MIDI numbers, octaves,
  semitone offsets, scale degrees) are modelled as `Int`; list indices and
  array accesses go through `jsArrayGet`, which returns `none` exactly where
  a JavaScript array access yields `undefined`.
* The JavaScript remainder operator `%` truncates toward zero, which is
  `Int.tmod`; `Math.floor (x / 12)` on an integer is Euclidean division by
  the positive constant `12`, which is `Int`'s `/`.
* `Note.name` is `Option NoteName`: `none` models the `undefined` that
  `NOTE_NAMES[i]` produces for an out-of-range index (the source's type
  annotation claims `NoteName`, but `getNoteName` can return `undefined` at
  runtime for negative MIDI numbers).  `Array.prototype.indexOf` returns
  `-1` when the element is absent, which `noteIndex` mirrors.
* The source stores a floating-point `frequency` field on every note,
  always computed from the MIDI number by `midiToFrequency`.  The embedding
  keeps the note structure exact and exposes the frequency as the function
  `noteFrequency` over the reals, so that frequency equality is literally
  determined by MIDI-number equality, as in the source.
* Mode-inference scores (`analyzeModeFromNotes`) are floating-point ratios
  `k/n` with small numerators and denominators plus an optional `+0.1`
  bonus; they are modelled exactly in `ℚ`.  For the values that actually
  arise the rational order coincides with the double-precision order.
-/

namespace ModalExplorer

/-- Chromatic pitch classes, from `NoteName` in `src/lib/types.ts`. -/
inductive NoteName
  | C | Cs | D | Ds | E | F | Fs | G | Gs | A | As | B
deriving DecidableEq, Repr, Fintype

/-- The chromatic note table `NOTE_NAMES` from `src/lib/notes.ts`. -/
def NOTE_NAMES : List NoteName :=
  [.C, .Cs, .D, .Ds, .E, .F, .Fs, .G, .Gs, .A, .As, .B]

/-- JavaScript array access `l[i]`: `undefined` (here `none`) outside `[0, l.length)`. -/
def jsArrayGet (l : List α) (i : Int) : Option α :=
  if i < 0 then none else l.get? i.toNat

/-- JavaScript remainder `a % b` truncates toward zero (`Int.tmod`).  Note that
`(-12) % 12` is `-0` in JavaScript and indexes an array like `0`; `Int.tmod`
returns `0` there, which matches. -/
def jsMod (a b : Int) : Int := Int.tmod a b

/-- A note value, from `Note` in `src/lib/types.ts` (the `frequency` field is
exposed as the function `noteFrequency`; see the file comment). -/
structure Note where
  name : Option NoteName
  octave : Int
  midiNumber : Int
deriving DecidableEq, Repr

/-- Chromatic index of a note name: `NOTE_NAMES.indexOf(noteName)`, which is
`-1` for `undefined`/absent. -/
def noteIndex : Option NoteName → Int
  | none => -1
  | some nm => (NOTE_NAMES.indexOf nm : Nat)

/-- Frequency of a MIDI number, `midiToFrequency` from `src/lib/notes.ts`:
`440 * 2 ^ ((midiNumber - 69) / 12)`, A4 (MIDI 69) = 440 Hz. -/
noncomputable def midiToFrequency (midiNumber : Int) : ℝ :=
  440 * (2 : ℝ) ^ (((midiNumber : ℝ) - 69) / 12)

/-- The `frequency` field a note carries in the source: always
`midiToFrequency(midiNumber)`, computed at construction time in `createNote`. -/
noncomputable def noteFrequency (n : Note) : ℝ := midiToFrequency n.midiNumber

/-- MIDI number of a name/octave pair, `getNoteNumber` from `src/lib/notes.ts`:
`(octave + 1) * 12 + NOTE_NAMES.indexOf(noteName)`; C4 = 60. -/
def getNoteNumber (noteName : Option NoteName) (octave : Int) : Int :=
  (octave + 1) * 12 + noteIndex noteName

/-- Note name of a MIDI number, `getNoteName` from `src/lib/notes.ts`:
`NOTE_NAMES[midiNumber % 12]` (with JavaScript truncating `%`, hence
`undefined` for negative remainders). -/
def getNoteName (midiNumber : Int) : Option NoteName :=
  jsArrayGet NOTE_NAMES (jsMod midiNumber 12)

/-- Octave of a MIDI number, `getOctave` from `src/lib/notes.ts`:
`Math.floor(midiNumber / 12) - 1` (Euclidean `/` floors for the positive
divisor 12). -/
def getOctave (midiNumber : Int) : Int := midiNumber / 12 - 1

/-- Note constructor `createNote` from `src/lib/notes.ts` (the stored
`frequency` is recovered by `noteFrequency`). -/
def createNote (noteName : Option NoteName) (octave : Int) : Note :=
  { name := noteName, octave := octave, midiNumber := getNoteNumber noteName octave }

/-- Transposition `transposeNote` from `src/lib/notes.ts`: recompute the MIDI
number, re-derive name and octave, and rebuild the note. -/
def transposeNote (note : Note) (semitones : Int) : Note :=
  let newMidiNumber := note.midiNumber + semitones
  let newNoteName := getNoteName newMidiNumber
  let newOctave := getOctave newMidiNumber
  createNote newNoteName newOctave

/-- Interval in semitones between two notes, `getInterval` from `src/lib/notes.ts`. -/
def getInterval (note1 note2 : Note) : Int := note2.midiNumber - note1.midiNumber

/-- A note is well formed when it carries a real pitch-class name and its
MIDI number satisfies the `Pitch` invariant
`midiNumber = (octave + 1) * 12 + chromaticIndex(name)`. -/
def wellFormedNote (p : Note) : Prop :=
  ∃ nm, p.name = some nm ∧ p.midiNumber = (p.octave + 1) * 12 + noteIndex (some nm)

instance (p : Note) : Decidable (wellFormedNote p) := by
  unfold wellFormedNote; infer_instance

/-- Mode names, from `ModeName` in `src/lib/types.ts`. -/
inductive ModeName
  | ionian | dorian | phrygian | lydian | mixolydian | aeolian | locrian
deriving DecidableEq, Repr, Fintype

/-- Chord qualities, from `ChordQuality` in `src/lib/types.ts`. -/
inductive ChordQuality
  | major | minor | diminished | augmented
  | dominant7 | major7 | minor7 | halfDiminished7 | diminished7
deriving DecidableEq, Repr, Fintype

/-- Harmonic function tags, from the `function` field of `ChordDefinition`. -/
inductive HarmonicFunction
  | tonic | subdominant | dominant | other
deriving DecidableEq, Repr, Fintype

/-- Diatonic chord definition, from `ChordDefinition` in `src/lib/types.ts`. -/
structure ChordDefinition where
  romanNumeral : String
  degree : Int
  quality : ChordQuality
  intervals : List Int
  name : String
  function : HarmonicFunction
deriving DecidableEq, Repr

/-- Mode descriptor, from `Mode` in `src/lib/types.ts`. -/
structure Mode where
  name : ModeName
  displayName : String
  intervals : List Int
  formula : String
  characteristicNotes : List Int
  description : String
  mood : String
  brightness : Int
  relativeToMajor : Int
  color : String
  commonChords : List ChordDefinition
  avoidNotes : Option (List Int) := none
deriving DecidableEq, Repr

/-- Object-literal key order of `MODES` in `src/lib/modes.ts` (the order
`Object.keys(MODES)` enumerates, used by `analyzeModeFromNotes`). -/
def modesKeyOrder : List ModeName :=
  [.locrian, .phrygian, .aeolian, .dorian, .mixolydian, .ionian, .lydian]

/-- The mode catalog `MODES` from `src/lib/modes.ts`, as a total function on
the seven mode names. -/
def MODES : ModeName → Mode
  | .locrian =>
    { name := .locrian
      displayName := "Locrian"
      intervals := [0, 1, 3, 5, 6, 8, 10]
      formula := "H-W-W-H-W-W-W"
      characteristicNotes := [2, 5]
      description := "The darkest and most unstable mode, built on the 7th degree of the major scale. Rarely used as a tonal center but creates extreme tension."
      mood := "Dark, unsettling, tense, unstable"
      brightness := 1
      relativeToMajor := 7
      color := "#1a0033"
      commonChords :=
        [ { romanNumeral := "i°", degree := 1, quality := .diminished, intervals := [0, 3, 6], name := "dim", function := .tonic }
        , { romanNumeral := "II", degree := 2, quality := .major, intervals := [0, 4, 7], name := "Maj", function := .other }
        , { romanNumeral := "iii", degree := 3, quality := .minor, intervals := [0, 3, 7], name := "min", function := .other }
        , { romanNumeral := "iv", degree := 4, quality := .minor, intervals := [0, 3, 7], name := "min", function := .subdominant }
        , { romanNumeral := "♭V", degree := 5, quality := .major, intervals := [0, 4, 7], name := "Maj", function := .other } ]
      avoidNotes := some [1] }
  | .phrygian =>
    { name := .phrygian
      displayName := "Phrygian"
      intervals := [0, 1, 3, 5, 7, 8, 10]
      formula := "H-W-W-W-H-W-W"
      characteristicNotes := [2]
      description := "Built on the 3rd degree of the major scale. Features a distinctive Spanish/flamenco sound due to the ♭2 (minor second) interval."
      mood := "Exotic, Spanish, dark, mysterious"
      brightness := 2
      relativeToMajor := 3
      color := "#330033"
      commonChords :=
        [ { romanNumeral := "i", degree := 1, quality := .minor, intervals := [0, 3, 7], name := "min", function := .tonic }
        , { romanNumeral := "♭II", degree := 2, quality := .major, intervals := [0, 4, 7], name := "Maj", function := .other }
        , { romanNumeral := "♭III", degree := 3, quality := .major, intervals := [0, 4, 7], name := "Maj", function := .other }
        , { romanNumeral := "iv", degree := 4, quality := .minor, intervals := [0, 3, 7], name := "min", function := .subdominant }
        , { romanNumeral := "v°", degree := 5, quality := .diminished, intervals := [0, 3, 6], name := "dim", function := .dominant }
        , { romanNumeral := "♭VI", degree := 6, quality := .major, intervals := [0, 4, 7], name := "Maj", function := .subdominant }
        , { romanNumeral := "♭vii", degree := 7, quality := .minor, intervals := [0, 3, 7], name := "min", function := .other } ] }
  | .aeolian =>
    { name := .aeolian
      displayName := "Aeolian (Natural Minor)"
      intervals := [0, 2, 3, 5, 7, 8, 10]
      formula := "W-H-W-W-H-W-W"
      characteristicNotes := [6]
      description := "The natural minor scale, built on the 6th degree of the major scale. The most common minor mode in Western music."
      mood := "Sad, melancholic, serious, reflective"
      brightness := 3
      relativeToMajor := 6
      color := "#1a4d4d"
      commonChords :=
        [ { romanNumeral := "i", degree := 1, quality := .minor, intervals := [0, 3, 7], name := "min", function := .tonic }
        , { romanNumeral := "ii°", degree := 2, quality := .diminished, intervals := [0, 3, 6], name := "dim", function := .other }
        , { romanNumeral := "♭III", degree := 3, quality := .major, intervals := [0, 4, 7], name := "Maj", function := .other }
        , { romanNumeral := "iv", degree := 4, quality := .minor, intervals := [0, 3, 7], name := "min", function := .subdominant }
        , { romanNumeral := "v", degree := 5, quality := .minor, intervals := [0, 3, 7], name := "min", function := .dominant }
        , { romanNumeral := "♭VI", degree := 6, quality := .major, intervals := [0, 4, 7], name := "Maj", function := .subdominant }
        , { romanNumeral := "♭VII", degree := 7, quality := .major, intervals := [0, 4, 7], name := "Maj", function := .other } ] }
  | .dorian =>
    { name := .dorian
      displayName := "Dorian"
      intervals := [0, 2, 3, 5, 7, 9, 10]
      formula := "W-H-W-W-W-H-W"
      characteristicNotes := [6]
      description := "Built on the 2nd degree of the major scale. A minor mode with a major 6th, giving it a jazzy, sophisticated sound."
      mood := "Cool, jazzy, sophisticated, hopeful minor"
      brightness := 4
      relativeToMajor := 2
      color := "#2d5a3d"
      commonChords :=
        [ { romanNumeral := "i", degree := 1, quality := .minor, intervals := [0, 3, 7], name := "min", function := .tonic }
        , { romanNumeral := "ii", degree := 2, quality := .minor, intervals := [0, 3, 7], name := "min", function := .other }
        , { romanNumeral := "♭III", degree := 3, quality := .major, intervals := [0, 4, 7], name := "Maj", function := .other }
        , { romanNumeral := "IV", degree := 4, quality := .major, intervals := [0, 4, 7], name := "Maj", function := .subdominant }
        , { romanNumeral := "v", degree := 5, quality := .minor, intervals := [0, 3, 7], name := "min", function := .dominant }
        , { romanNumeral := "vi°", degree := 6, quality := .diminished, intervals := [0, 3, 6], name := "dim", function := .other }
        , { romanNumeral := "♭VII", degree := 7, quality := .major, intervals := [0, 4, 7], name := "Maj", function := .other } ] }
  | .mixolydian =>
    { name := .mixolydian
      displayName := "Mixolydian"
      intervals := [0, 2, 4, 5, 7, 9, 10]
      formula := "W-W-H-W-W-H-W"
      characteristicNotes := [7]
      description := "Built on the 5th degree of the major scale. A major mode with a ♭7, giving it a bluesy, rock sound."
      mood := "Uplifting, bluesy, rock, optimistic"
      brightness := 5
      relativeToMajor := 5
      color := "#b35900"
      commonChords :=
        [ { romanNumeral := "I", degree := 1, quality := .major, intervals := [0, 4, 7], name := "Maj", function := .tonic }
        , { romanNumeral := "ii", degree := 2, quality := .minor, intervals := [0, 3, 7], name := "min", function := .other }
        , { romanNumeral := "iii°", degree := 3, quality := .diminished, intervals := [0, 3, 6], name := "dim", function := .other }
        , { romanNumeral := "IV", degree := 4, quality := .major, intervals := [0, 4, 7], name := "Maj", function := .subdominant }
        , { romanNumeral := "v", degree := 5, quality := .minor, intervals := [0, 3, 7], name := "min", function := .dominant }
        , { romanNumeral := "vi", degree := 6, quality := .minor, intervals := [0, 3, 7], name := "min", function := .other }
        , { romanNumeral := "♭VII", degree := 7, quality := .major, intervals := [0, 4, 7], name := "Maj", function := .other } ] }
  | .ionian =>
    { name := .ionian
      displayName := "Ionian (Major)"
      intervals := [0, 2, 4, 5, 7, 9, 11]
      formula := "W-W-H-W-W-W-H"
      characteristicNotes := [4, 7]
      description := "The major scale, the foundation of Western music. Built on the 1st degree of itself."
      mood := "Happy, bright, stable, resolved"
      brightness := 6
      relativeToMajor := 1
      color := "#ffd700"
      commonChords :=
        [ { romanNumeral := "I", degree := 1, quality := .major, intervals := [0, 4, 7], name := "Maj", function := .tonic }
        , { romanNumeral := "ii", degree := 2, quality := .minor, intervals := [0, 3, 7], name := "min", function := .other }
        , { romanNumeral := "iii", degree := 3, quality := .minor, intervals := [0, 3, 7], name := "min", function := .other }
        , { romanNumeral := "IV", degree := 4, quality := .major, intervals := [0, 4, 7], name := "Maj", function := .subdominant }
        , { romanNumeral := "V", degree := 5, quality := .major, intervals := [0, 4, 7], name := "Maj", function := .dominant }
        , { romanNumeral := "vi", degree := 6, quality := .minor, intervals := [0, 3, 7], name := "min", function := .other }
        , { romanNumeral := "vii°", degree := 7, quality := .diminished, intervals := [0, 3, 6], name := "dim", function := .other } ] }
  | .lydian =>
    { name := .lydian
      displayName := "Lydian"
      intervals := [0, 2, 4, 6, 7, 9, 11]
      formula := "W-W-W-H-W-W-H"
      characteristicNotes := [4]
      description := "Built on the 4th degree of the major scale. Features a #4, creating a dreamy, ethereal quality."
      mood := "Dreamy, mystical, bright, floating"
      brightness := 7
      relativeToMajor := 4
      color := "#00ffff"
      commonChords :=
        [ { romanNumeral := "I", degree := 1, quality := .major, intervals := [0, 4, 7], name := "Maj", function := .tonic }
        , { romanNumeral := "II", degree := 2, quality := .major, intervals := [0, 4, 7], name := "Maj", function := .other }
        , { romanNumeral := "iii", degree := 3, quality := .minor, intervals := [0, 3, 7], name := "min", function := .other }
        , { romanNumeral := "#iv°", degree := 4, quality := .diminished, intervals := [0, 3, 6], name := "dim", function := .subdominant }
        , { romanNumeral := "V", degree := 5, quality := .major, intervals := [0, 4, 7], name := "Maj", function := .dominant }
        , { romanNumeral := "vi", degree := 6, quality := .minor, intervals := [0, 3, 7], name := "min", function := .other }
        , { romanNumeral := "vii", degree := 7, quality := .minor, intervals := [0, 3, 7], name := "min", function := .other } ] }

/-- Mode lookup `getMode` from `src/lib/modes.ts`. -/
def getMode (name : ModeName) : Mode := MODES name

/-- A generated scale, from `Scale` in `src/lib/types.ts`. -/
structure Scale where
  root : NoteName
  mode : Mode
  notes : List Note
  octave : Int
deriving DecidableEq, Repr

/-- Scale generation `generateScale` from `src/lib/theory-engine.ts`:
transpose the root note by each of the mode's interval offsets. -/
def generateScale (root : NoteName) (mode : ModeName) (octave : Int) : Scale :=
  let modeData := getMode mode
  let rootNote := createNote (some root) octave
  let notes := modeData.intervals.map (fun interval => transposeNote rootNote interval)
  { root := root, mode := modeData, notes := notes, octave := octave }

/-- Interval sets of the nine chord qualities, `getChordIntervals` from
`src/lib/theory-engine.ts`. -/
def getChordIntervals : ChordQuality → List Int
  | .major => [0, 4, 7]
  | .minor => [0, 3, 7]
  | .diminished => [0, 3, 6]
  | .augmented => [0, 4, 8]
  | .dominant7 => [0, 4, 7, 10]
  | .major7 => [0, 4, 7, 11]
  | .minor7 => [0, 3, 7, 10]
  | .halfDiminished7 => [0, 3, 6, 10]
  | .diminished7 => [0, 3, 6, 9]

/-- A built chord, from `ChordInstance` in `src/lib/types.ts` (the optional
fields `romanNumeral` and `function` are `Option`s). -/
structure ChordInstance where
  root : Note
  quality : ChordQuality
  notes : List Note
  romanNumeral : Option String := none
  function : Option HarmonicFunction := none
deriving DecidableEq, Repr

/-- Chord construction `buildChord` from `src/lib/theory-engine.ts`: apply the
quality's interval set via `transposeNote` from the chord root. -/
def buildChord (root : Note) (quality : ChordQuality) : ChordInstance :=
  let intervals := getChordIntervals quality
  let notes := intervals.map (fun interval => transposeNote root interval)
  { root := root, quality := quality, notes := notes }

/-- Diatonic harmonization `generateDiatonicChords` from
`src/lib/theory-engine.ts`: one chord per entry of the mode's `commonChords`
list, rooted at `scale.notes[chordDef.degree - 1]`.  The `Option` around each
element models the array access: `none` marks a degree falling outside the
generated 7-note scale, where the source would fault on `undefined` (this
branch is unreachable for the shipped catalog, whose degrees all lie in 1..7). -/
def generateDiatonicChords (root : NoteName) (mode : ModeName) (octave : Int) :
    List (Option ChordInstance) :=
  let scale := generateScale root mode octave
  let modeData := getMode mode
  modeData.commonChords.map (fun chordDef =>
    (jsArrayGet scale.notes (chordDef.degree - 1)).map (fun chordRoot =>
      let chord := buildChord chordRoot chordDef.quality
      { chord with
          romanNumeral := some chordDef.romanNumeral
          function := some chordDef.function }))

/-- Single-degree chord lookup `buildChordFromDegree` from
`src/lib/theory-engine.ts`: `none` models the source's `null` result when no
`commonChords` entry carries the requested degree. -/
def buildChordFromDegree (root : NoteName) (mode : ModeName) (degree : Int)
    (octave : Int) : Option ChordInstance :=
  let scale := generateScale root mode octave
  let modeData := getMode mode
  match modeData.commonChords.find? (fun c => c.degree == degree) with
  | none => none
  | some chordDef =>
    (jsArrayGet scale.notes (degree - 1)).map (fun chordRoot =>
      let chord := buildChord chordRoot chordDef.quality
      { chord with
          romanNumeral := some chordDef.romanNumeral
          function := some chordDef.function })

/-- Deduplication keeping the first occurrence, as the source's
`filter((mode, index, self) => self.indexOf(mode) === index)` does.  Written
with an accumulator of already-seen elements so that it is structurally
recursive. -/
def dedupFirstAux [DecidableEq α] (seen : List α) : List α → List α
  | [] => []
  | a :: l => if a ∈ seen then dedupFirstAux seen l else a :: dedupFirstAux (a :: seen) l

/-- Keep the first occurrence of every element, dropping later duplicates. -/
def dedupFirst [DecidableEq α] (l : List α) : List α := dedupFirstAux [] l

/-- One entry of the source's `modeScores` array in `analyzeModeFromNotes`. -/
structure ModeScore where
  mode : ModeName
  score : ℚ
deriving DecidableEq, Repr

/-- Insertion into a descending-by-score list, placing the new element after
every element of greater-or-equal score.  Folding this over the unsorted list
yields exactly the stable descending sort that
`Array.prototype.sort((a, b) => b.score - a.score)` performs. -/
def insertByScoreDesc (x : ModeScore) : List ModeScore → List ModeScore
  | [] => [x]
  | y :: l => if x.score ≤ y.score then y :: insertByScoreDesc x l else x :: y :: l

/-- Stable descending sort by score (see `insertByScoreDesc`). -/
def sortByScoreDesc (l : List ModeScore) : List ModeScore :=
  l.foldl (fun acc x => insertByScoreDesc x acc) []

/-- Candidate roots tested by `analyzeModeFromNotes`: just the supplied root,
or all twelve pitch classes. -/
def rootsToTest : Option NoteName → List NoteName
  | some possibleRoot => [possibleRoot]
  | none => NOTE_NAMES

/-- The distinct sounding pitch classes, in first-appearance order: the
source's `uniqueNotes = Array.from(new Set(notes.map(n => n.midiNumber % 12)))`. -/
def uniquePitchClasses (notes : List Note) : List Int :=
  dedupFirst (notes.map (fun n => jsMod n.midiNumber 12))

/-- The pitch classes of a candidate scale, the source's
`scaleNotes = scale.notes.map(n => n.midiNumber % 12)` (with `generateScale`
called at its default octave, 4). -/
def scalePitchClasses (root : NoteName) (mode : ModeName) : List Int :=
  (generateScale root mode 4).notes.map (fun n => jsMod n.midiNumber 12)

/-- The source's `matchingNotes`: how many of the sounding pitch classes lie
in the candidate scale. -/
def countMatching (uniqueNotes scaleNotes : List Int) : Nat :=
  (uniqueNotes.filter (fun n => scaleNotes.contains n)).length

/-- The `modeScores` array built by `analyzeModeFromNotes` in
`src/lib/theory-engine.ts`: one score per (mode, candidate root) pair, modes
in `Object.keys(MODES)` order, with `score = matching / uniqueNotes.length`
and a `+0.1` bonus exactly when the score is `1`. -/
def modeScoresFor (notes : List Note) (possibleRoot : Option NoteName) :
    List ModeScore :=
  modesKeyOrder.flatMap (fun modeName =>
    (rootsToTest possibleRoot).map (fun root =>
      let matching := countMatching (uniquePitchClasses notes) (scalePitchClasses root modeName)
      let score : ℚ := (matching : ℚ) / ((uniquePitchClasses notes).length : ℚ)
      if score = 1 then { mode := modeName, score := score + 1/10 }
      else { mode := modeName, score := score }))

/-- Mode inference `analyzeModeFromNotes` from `src/lib/theory-engine.ts`:
score every (mode, candidate root) pair, sort descending by score (stably),
keep the first occurrence of each mode, return the top 3. -/
def analyzeModeFromNotes (notes : List Note) (possibleRoot : Option NoteName) :
    List ModeName :=
  (dedupFirst ((sortByScoreDesc (modeScoresFor notes possibleRoot)).map
    (fun m => m.mode))).take 3

/-- Keyboard layout kinds, from `KeyboardLayoutType` in
`src/lib/keyboard-mappings.ts`. -/
inductive KeyboardLayoutType
  | scaleDegree | chromatic
deriving DecidableEq, Repr

/-- One layout entry, from `ScaleDegreeMapping` in
`src/lib/keyboard-mappings.ts`. -/
structure ScaleDegreeMapping where
  key : String
  scaleDegree : Int
  octaveOffset : Int
  label : String
deriving DecidableEq, Repr

/-- A keyboard layout, from `KeyboardLayout` in `src/lib/keyboard-mappings.ts`. -/
structure KeyboardLayout where
  name : String
  type : KeyboardLayoutType
  description : String
  mappings : List ScaleDegreeMapping
  toggleKey : String
  sustainKey : String
  helpKey : String
deriving DecidableEq, Repr

/-- The shipped scale-degree layout `SCALE_DEGREE_LAYOUT` from
`src/lib/keyboard-mappings.ts`. -/
def SCALE_DEGREE_LAYOUT : KeyboardLayout :=
  { name := "Scale Degree"
    type := .scaleDegree
    description := "Three-row layout: QWERTYUI (upper), ASDFGHJK (main), ZXCVBNM, (lower)"
    mappings :=
      [ { key := "q", scaleDegree := 1, octaveOffset := 1, label := "Root (High)" }
      , { key := "w", scaleDegree := 2, octaveOffset := 1, label := "2nd (High)" }
      , { key := "e", scaleDegree := 3, octaveOffset := 1, label := "3rd (High)" }
      , { key := "r", scaleDegree := 4, octaveOffset := 1, label := "4th (High)" }
      , { key := "t", scaleDegree := 5, octaveOffset := 1, label := "5th (High)" }
      , { key := "y", scaleDegree := 6, octaveOffset := 1, label := "6th (High)" }
      , { key := "u", scaleDegree := 7, octaveOffset := 1, label := "7th (High)" }
      , { key := "i", scaleDegree := 1, octaveOffset := 2, label := "Octave (High)" }
      , { key := "a", scaleDegree := 1, octaveOffset := 0, label := "Root (Main)" }
      , { key := "s", scaleDegree := 2, octaveOffset := 0, label := "2nd (Main)" }
      , { key := "d", scaleDegree := 3, octaveOffset := 0, label := "3rd (Main)" }
      , { key := "f", scaleDegree := 4, octaveOffset := 0, label := "4th (Main)" }
      , { key := "g", scaleDegree := 5, octaveOffset := 0, label := "5th (Main)" }
      , { key := "h", scaleDegree := 6, octaveOffset := 0, label := "6th (Main)" }
      , { key := "j", scaleDegree := 7, octaveOffset := 0, label := "7th (Main)" }
      , { key := "k", scaleDegree := 1, octaveOffset := 1, label := "Octave (Main)" }
      , { key := "z", scaleDegree := 1, octaveOffset := -1, label := "Root (Low)" }
      , { key := "x", scaleDegree := 2, octaveOffset := -1, label := "2nd (Low)" }
      , { key := "c", scaleDegree := 3, octaveOffset := -1, label := "3rd (Low)" }
      , { key := "v", scaleDegree := 4, octaveOffset := -1, label := "4th (Low)" }
      , { key := "b", scaleDegree := 5, octaveOffset := -1, label := "5th (Low)" }
      , { key := "n", scaleDegree := 6, octaveOffset := -1, label := "6th (Low)" }
      , { key := "m", scaleDegree := 7, octaveOffset := -1, label := "7th (Low)" }
      , { key := ",", scaleDegree := 1, octaveOffset := 0, label := "Octave (Low)" } ]
    toggleKey := "`"
    sustainKey := " "
    helpKey := "/" }

/-- The reserved (empty) chromatic layout `CHROMATIC_LAYOUT` from
`src/lib/keyboard-mappings.ts`. -/
def CHROMATIC_LAYOUT : KeyboardLayout :=
  { name := "Chromatic"
    type := .chromatic
    description := "Play chromatic notes like a piano keyboard"
    mappings := []
    toggleKey := "`"
    sustainKey := " "
    helpKey := "/" }

/-- Layout lookup `getKeyboardLayout` from `src/lib/keyboard-mappings.ts`. -/
def getKeyboardLayout : KeyboardLayoutType → KeyboardLayout
  | .scaleDegree => SCALE_DEGREE_LAYOUT
  | .chromatic => CHROMATIC_LAYOUT

/-- Lower-casing of an event key, `event.key.toLowerCase()`.  Written as a
structural map over the characters so it evaluates inside the kernel; the
keys that occur are ASCII, where `Char.toLower` agrees with JavaScript. -/
def jsToLower (s : String) : String := String.mk (s.data.map Char.toLower)

/-- Mapping lookup `findScaleDegreeMapping` from `src/lib/keyboard-mappings.ts`. -/
def findScaleDegreeMapping (key : String) (layout : KeyboardLayout) :
    Option ScaleDegreeMapping :=
  layout.mappings.find? (fun m => m.key == jsToLower key)

/-- The always-pass-through navigation keys `UI_NAVIGATION_KEYS` from
`src/lib/keyboard-mappings.ts`. -/
def UI_NAVIGATION_KEYS : List String :=
  ["Tab", "Enter", "Escape", "ArrowLeft", "ArrowRight", "Home", "End",
   "PageUp", "PageDown"]

/-- String helper for `code.startsWith(...)` that evaluates structurally. -/
def jsStartsWith (s pre : String) : Bool := pre.data.isPrefixOf s.data

/-- String helper for `code.slice(n)` that evaluates structurally. -/
def jsDropChars (s : String) (n : Nat) : String := String.mk (s.data.drop n)

/-- Translation of `event.code` to a letter key, `codeToKey` from
`src/hooks/useKeyboardPiano.ts` (used when Alt is held). -/
def codeToKey (code : String) : Option String :=
  if jsStartsWith code "Key" then some (jsToLower (jsDropChars code 3))
  else if jsStartsWith code "Digit" then some (jsDropChars code 5)
  else if code == "Comma" then some ","
  else if code == "Space" then some " "
  else none

/-- Modes in traditional order, the table the Shift+digit shortcut indexes in
`handleKeyDown` (`1` = ionian ... `7` = locrian). -/
def digitModes : List ModeName :=
  [.ionian, .dorian, .phrygian, .lydian, .mixolydian, .aeolian, .locrian]

/-- Digit-to-mode resolution of the Shift+digit branch of `handleKeyDown`:
`some` exactly for the digits '1'..'7' (for the single-character digits a
`Digit*` code produces, the source's string comparison and `parseInt` are
this lookup). -/
def modeFromDigit (digit : String) : Option ModeName :=
  match digit with
  | "1" => some .ionian
  | "2" => some .dorian
  | "3" => some .phrygian
  | "4" => some .lydian
  | "5" => some .mixolydian
  | "6" => some .aeolian
  | "7" => some .locrian
  | _ => none

/-- A `KeyboardEvent` as the hook consumes it: key, code and modifier flags. -/
structure KeyEvent where
  key : String
  code : String
  altKey : Bool := false
  shiftKey : Bool := false
  ctrlKey : Bool := false
  metaKey : Bool := false
deriving DecidableEq, Repr

/-- Calls the performance state machine issues against the Audio Sink
(`audioEngine` in `src/hooks/useKeyboardPiano.ts`). -/
inductive AudioCall
  | attackNote (n : Note)
  | releaseNote (n : Note)
  | enableSustain
  | disableSustain
deriving DecidableEq, Repr

/-- The mutable state `useKeyboardPiano` owns: the four tracking collections
(the `pressedKeys`, `sustainedNotes`, `heldNotes` and `keyToNotes` refs) plus
the store fields the handlers read or write (`currentRoot`, `currentMode`,
`currentOctave`, `keyboardLayout`, `keyboardEnabled`, `sustainPedal`) and the
audio-engine readiness flag.  JavaScript `Map`s/`Set`s are insertion-ordered,
modelled as association lists / lists without duplicates.  View-only store
state (active-note highlighting, note trails, overlay flags) is outside the
model. -/
structure PianoState where
  currentRoot : NoteName
  currentMode : ModeName
  currentOctave : Int
  keyboardLayout : KeyboardLayoutType
  keyboardEnabled : Bool
  sustainPedal : Bool
  audioInitialized : Bool
  pressedKeys : List String
  sustainedNotes : List (Int × Note)
  heldNotes : List (Int × Note)
  keyToNotes : List (String × List Int)
deriving DecidableEq, Repr

/-- JavaScript `Map.has`. -/
def jsMapHas [BEq κ] (m : List (κ × α)) (k : κ) : Bool :=
  m.any (fun p => p.1 == k)

/-- JavaScript `Map.get` (`none` for a missing key). -/
def jsMapGet [BEq κ] (m : List (κ × α)) (k : κ) : Option α :=
  (m.find? (fun p => p.1 == k)).map (fun p => p.2)

/-- JavaScript `Map.set`: update in place when the key exists (keeping its
position), append otherwise. -/
def jsMapSet [BEq κ] (m : List (κ × α)) (k : κ) (v : α) : List (κ × α) :=
  if jsMapHas m k then m.map (fun p => if p.1 == k then (k, v) else p)
  else m ++ [(k, v)]

/-- JavaScript `Map.delete`. -/
def jsMapDelete [BEq κ] (m : List (κ × α)) (k : κ) : List (κ × α) :=
  m.filter (fun p => p.1 != k)

/-- JavaScript `Set.add` (appends only when absent). -/
def jsSetAdd [BEq α] (s : List α) (a : α) : List α :=
  if s.contains a then s else s ++ [a]

/-- JavaScript `Set.delete`. -/
def jsSetDelete [BEq α] (s : List α) (a : α) : List α :=
  s.filter (fun b => b != a)

/-- The per-note core of `playScaleDegree`: with the pedal down, attack and
register in `sustainedNotes` unconditionally (re-striking an already
sustaining MIDI number by design); with the pedal up, attack and register in
`heldNotes` only when that MIDI number is not already held. -/
def strikeNote (s : PianoState) (note : Note) : PianoState × List AudioCall :=
  if s.sustainPedal then
    ({ s with sustainedNotes := jsMapSet s.sustainedNotes note.midiNumber note },
     [.attackNote note])
  else if jsMapHas s.heldNotes note.midiNumber then (s, [])
  else
    ({ s with heldNotes := jsMapSet s.heldNotes note.midiNumber note },
     [.attackNote note])

/-- The hook's `playScaleDegree` (`src/hooks/useKeyboardPiano.ts`): resolve
the scale degree to a chord (Alt held) or a single scale note, strike each
resolved note, and record the played MIDI numbers against the computer key in
`keyToNotes` when any note played.  Returns the new state, the Audio Sink
calls made, and the played set.  View-only effects (`addActiveNote`,
`addNoteTrail`) and the unused velocity computation are omitted. -/
def playScaleDegree (s : PianoState) (scaleDegree octaveOffset : Int)
    (isChord : Bool) (computerKey : Option String) :
    PianoState × List AudioCall × List Int :=
  if !s.audioInitialized then (s, [], [])
  else
    let targetOctave := s.currentOctave + octaveOffset
    let struck :=
      if isChord then
        match buildChordFromDegree s.currentRoot s.currentMode scaleDegree targetOctave with
        | none => (s, ([], []))
        | some chord =>
          chord.notes.foldl
            (fun (acc : PianoState × List AudioCall × List Int) note =>
              let playedNotes := jsSetAdd acc.2.2 note.midiNumber
              let (st, calls) := strikeNote acc.1 note
              (st, acc.2.1 ++ calls, playedNotes))
            (s, ([], []))
      else
        let scale := generateScale s.currentRoot s.currentMode targetOctave
        let noteIndex := scaleDegree - 1
        match jsArrayGet scale.notes noteIndex with
        | none => (s, ([], []))
        | some note =>
          let (st, calls) := strikeNote s note
          (st, calls, jsSetAdd [] note.midiNumber)
    match computerKey with
    | some k =>
      if struck.2.2.isEmpty then struck
      else ({ struck.1 with keyToNotes := jsMapSet struck.1.keyToNotes k struck.2.2 },
            struck.2)
    | none => struck

/-- The untracked fallback of `stopScaleDegree`: recompute the scale note for
the degree and release it unless it is sustained (the note released is the
recomputed one, as in the source). -/
def stopScaleDegreeFallback (s : PianoState) (scaleDegree octaveOffset : Int) :
    PianoState × List AudioCall :=
  let targetOctave := s.currentOctave + octaveOffset
  let scale := generateScale s.currentRoot s.currentMode targetOctave
  let noteIndex := scaleDegree - 1
  match jsArrayGet scale.notes noteIndex with
  | none => (s, [])
  | some note =>
    if jsMapHas s.sustainedNotes note.midiNumber then (s, [])
    else if jsMapHas s.heldNotes note.midiNumber then
      ({ s with heldNotes := jsMapDelete s.heldNotes note.midiNumber },
       [.releaseNote note])
    else (s, [])

/-- The hook's `stopScaleDegree` (`src/hooks/useKeyboardPiano.ts`): when the
key is tracked in `keyToNotes`, walk every MIDI number it triggered — leave
sustained ones sounding (and remember that some note was sustained), release
held ones — and delete the tracking entry only when none was sustained;
otherwise fall back to the recomputed-scale-note path. -/
def stopScaleDegree (s : PianoState) (scaleDegree octaveOffset : Int)
    (computerKey : Option String) : PianoState × List AudioCall :=
  match computerKey with
  | some k =>
    if jsMapHas s.keyToNotes k then
      let notesToRelease := (jsMapGet s.keyToNotes k).getD []
      let walked :=
        notesToRelease.foldl
          (fun (acc : PianoState × List AudioCall × Bool) midiNumber =>
            if jsMapHas acc.1.sustainedNotes midiNumber then
              (acc.1, acc.2.1, true)
            else
              match jsMapGet acc.1.heldNotes midiNumber with
              | some note =>
                ({ acc.1 with heldNotes := jsMapDelete acc.1.heldNotes midiNumber },
                 acc.2.1 ++ [.releaseNote note], acc.2.2)
              | none => acc)
          (s, ([], false))
      if walked.2.2 then (walked.1, walked.2.1)
      else ({ walked.1 with keyToNotes := jsMapDelete walked.1.keyToNotes k },
            walked.2.1)
    else stopScaleDegreeFallback s scaleDegree octaveOffset
  | none => stopScaleDegreeFallback s scaleDegree octaveOffset

/-- The hook's `handleKeyDown` (`src/hooks/useKeyboardPiano.ts`), in source
order: UI-navigation keys and focused inputs pass through; the toggle key
flips performance mode (the asynchronous audio initialization it may start is
elided — the readiness flag is set by a later promise); Ctrl/Cmd+help toggles
the overlay (view state only); Shift+digit 1..7 switches mode even when
performance mode is off; then, with performance mode on and auto-repeat
suppressed, the sustain key engages the pedal and a mapped key plays its
scale degree (as a chord when Alt is held). -/
def handleKeyDown (s : PianoState) (inputFocused : Bool) (e : KeyEvent) :
    PianoState × List AudioCall :=
  let key := jsToLower e.key
  if UI_NAVIGATION_KEYS.contains e.key then (s, [])
  else if inputFocused then (s, [])
  else
    let layout := getKeyboardLayout s.keyboardLayout
    if key == layout.toggleKey then
      ({ s with keyboardEnabled := !s.keyboardEnabled }, [])
    else if (e.ctrlKey || e.metaKey) && key == layout.helpKey then (s, [])
    else
      match (if e.shiftKey && jsStartsWith e.code "Digit" then
               modeFromDigit (jsDropChars e.code 5)
             else none) with
      | some m => ({ s with currentMode := m }, [])
      | none =>
        if !s.keyboardEnabled then (s, [])
        else if s.pressedKeys.contains key then (s, [])
        else if key == layout.sustainKey then
          ({ s with sustainPedal := true }, [.enableSustain])
        else
          let lookupKey := if e.altKey then (codeToKey e.code).getD key else key
          match findScaleDegreeMapping lookupKey layout with
          | none => (s, [])
          | some mapping =>
            let s1 := { s with pressedKeys := jsSetAdd s.pressedKeys mapping.key }
            let struck := playScaleDegree s1 mapping.scaleDegree mapping.octaveOffset
              e.altKey (some mapping.key)
            (struck.1, struck.2.1)

/-- The hook's `handleKeyUp` (`src/hooks/useKeyboardPiano.ts`): releasing the
sustain key restores the natural envelope and releases every sustained note
(leaving `keyToNotes` to be cleaned up by later key releases); releasing a
mapped key clears it from `pressedKeys` and stops its notes via
`stopScaleDegree`. -/
def handleKeyUp (s : PianoState) (e : KeyEvent) : PianoState × List AudioCall :=
  if !s.keyboardEnabled then (s, [])
  else
    let key := jsToLower e.key
    let layout := getKeyboardLayout s.keyboardLayout
    if key == layout.sustainKey then
      let releases := s.sustainedNotes.map (fun p => AudioCall.releaseNote p.2)
      ({ s with sustainPedal := false, sustainedNotes := [] },
       .disableSustain :: releases)
    else
      let lookupKey := if e.altKey then (codeToKey e.code).getD key else key
      match findScaleDegreeMapping lookupKey layout with
      | none => (s, [])
      | some mapping =>
        let s1 := { s with pressedKeys := jsSetDelete s.pressedKeys mapping.key }
        stopScaleDegree s1 mapping.scaleDegree mapping.octaveOffset (some mapping.key)

/-- The hook's `handleBlur` (`src/hooks/useKeyboardPiano.ts`): with
performance mode on, restore the natural envelope, release every sustained
and every held note, and clear all four tracking collections. -/
def handleBlur (s : PianoState) : PianoState × List AudioCall :=
  if !s.keyboardEnabled then (s, [])
  else
    let sustainedReleases := s.sustainedNotes.map (fun p => AudioCall.releaseNote p.2)
    let heldReleases := s.heldNotes.map (fun p => AudioCall.releaseNote p.2)
    ({ s with
        pressedKeys := [], sustainedNotes := [], heldNotes := [], keyToNotes := [] },
     .disableSustain :: (sustainedReleases ++ heldReleases))

/-- Discrete input events dispatched to the handlers (key events with no
focused input element). -/
inductive PianoEvent
  | keyDown (e : KeyEvent)
  | keyUp (e : KeyEvent)
  | windowBlur
deriving DecidableEq, Repr

/-- Dispatch one event to its handler. -/
def stepEvent (s : PianoState) : PianoEvent → PianoState × List AudioCall
  | .keyDown e => handleKeyDown s false e
  | .keyUp e => handleKeyUp s e
  | .windowBlur => handleBlur s

/-- Run a sequence of events, concatenating the Audio Sink call logs. -/
def runEvents (s : PianoState) (evs : List PianoEvent) :
    PianoState × List AudioCall :=
  evs.foldl
    (fun (acc : PianoState × List AudioCall) ev =>
      let stepped := stepEvent acc.1 ev
      (stepped.1, acc.2 ++ stepped.2))
    (s, [])

/-- Number of `attack` calls for a given MIDI number in a call log. -/
def attackCount (log : List AudioCall) (midiNumber : Int) : Nat :=
  (log.filter (fun c =>
    match c with
    | .attackNote n => n.midiNumber == midiNumber
    | _ => false)).length

/-- Number of `release` calls for a given MIDI number in a call log. -/
def releaseCount (log : List AudioCall) (midiNumber : Int) : Nat :=
  (log.filter (fun c =>
    match c with
    | .releaseNote n => n.midiNumber == midiNumber
    | _ => false)).length

/-- All `release` calls in a call log, in order. -/
def releaseCalls (log : List AudioCall) : List AudioCall :=
  log.filter (fun c =>
    match c with
    | .releaseNote _ => true
    | _ => false)

/-- Plain key-down event (no modifiers). -/
def keyDownEvent (k c : String) : PianoEvent := .keyDown { key := k, code := c }

/-- Plain key-up event (no modifiers). -/
def keyUpEvent (k c : String) : PianoEvent := .keyUp { key := k, code := c }

/-- A session state at the store's initial settings (root C, ionian, octave 4,
scale-degree layout) with performance mode enabled, the audio engine ready,
the pedal up and nothing tracked. -/
def demoState : PianoState :=
  { currentRoot := .C
    currentMode := .ionian
    currentOctave := 4
    keyboardLayout := .scaleDegree
    keyboardEnabled := true
    sustainPedal := false
    audioInitialized := true
    pressedKeys := []
    sustainedNotes := []
    heldNotes := []
    keyToNotes := [] }

/-- Event sequence for the sustain-compounding scenario: pedal down, then the
key `a` pressed and released three times with the pedal held. -/
def sustainCompoundEvents : List PianoEvent :=
  [keyDownEvent " " "Space",
   keyDownEvent "a" "KeyA", keyUpEvent "a" "KeyA",
   keyDownEvent "a" "KeyA", keyUpEvent "a" "KeyA",
   keyDownEvent "a" "KeyA", keyUpEvent "a" "KeyA"]

/-- Event sequence for the blur scenario: hold `a` and `s` (two held notes),
press the pedal, then strike and release `d` so that one note stays sustained. -/
def blurSetupEvents : List PianoEvent :=
  [keyDownEvent "a" "KeyA", keyDownEvent "s" "KeyS",
   keyDownEvent " " "Space",
   keyDownEvent "d" "KeyD", keyUpEvent "d" "KeyD"]

/-- The seven sounding notes covering exactly the C-major pitch classes
0, 2, 4, 5, 7, 9, 11 (the literal scenario of the mode-inference property). -/
def cMajorSounding : List Note :=
  [createNote (some .C) 4, createNote (some .D) 4, createNote (some .E) 4,
   createNote (some .F) 4, createNote (some .G) 4, createNote (some .A) 4,
   createNote (some .B) 4]

/-!
End of the embedded definitions; everything below is lemmas and theorems
about them.
-/

/-- Every pitch-class name has chromatic index in `[0, 12)`. -/
lemma noteIndex_bounds : ∀ nm : NoteName,
    0 ≤ noteIndex (some nm) ∧ noteIndex (some nm) < 12 := by decide

/-- Looking the chromatic index back up in the note table recovers the name. -/
lemma noteNames_get_noteIndex : ∀ nm : NoteName,
    jsArrayGet NOTE_NAMES (noteIndex (some nm)) = some nm := by decide

/-- Chromatic indices are distinct across the twelve names. -/
lemma noteIndex_inj : ∀ a b : NoteName,
    noteIndex (some a) = noteIndex (some b) → a = b := by decide

/-- The chromatic index of the name stored at position `j` of the table is `j`. -/
lemma noteIndex_get : ∀ j : Fin NOTE_NAMES.length,
    noteIndex (some (NOTE_NAMES.get j)) = (j : Int) := by decide

/-- For a nonnegative MIDI number the name lookup succeeds and returns the
name whose chromatic index is `midiNumber % 12`. -/
lemma getNoteName_nonneg (m : Int) (h : 0 ≤ m) :
    ∃ nm, getNoteName m = some nm ∧ noteIndex (some nm) = m % 12 := by
  have hmod : jsMod m 12 = m % 12 := Int.tmod_eq_emod h (by norm_num)
  have h0 : 0 ≤ m % 12 := Int.emod_nonneg m (by norm_num)
  have h12 : m % 12 < 12 := Int.emod_lt_of_pos m (by norm_num)
  have hlen : NOTE_NAMES.length = 12 := by decide
  have hlt : (m % 12).toNat < NOTE_NAMES.length := by omega
  refine ⟨NOTE_NAMES.get ⟨(m % 12).toNat, hlt⟩, ?_, ?_⟩
  · unfold getNoteName jsArrayGet
    rw [hmod, if_neg (by omega)]
    exact List.get?_eq_get hlt
  · have := noteIndex_get ⟨(m % 12).toNat, hlt⟩
    rw [this]
    simp
    omega

/-- Evaluation of `transposeNote` at a nonnegative target MIDI number: the new
MIDI number is the sum, the octave is the floored quotient minus one, and the
name is the pitch class of the remainder. -/
lemma transposeNote_eval (p : Note) (k : Int) (h : 0 ≤ p.midiNumber + k) :
    ∃ nm, transposeNote p k =
        { name := some nm
          octave := (p.midiNumber + k) / 12 - 1
          midiNumber := p.midiNumber + k } ∧
      noteIndex (some nm) = (p.midiNumber + k) % 12 := by
  obtain ⟨nm, hname, hidx⟩ := getNoteName_nonneg (p.midiNumber + k) h
  refine ⟨nm, ?_, hidx⟩
  unfold transposeNote createNote getNoteNumber getOctave
  simp only [hname]
  congr 1
  rw [hidx]
  omega

/-- The MIDI number of a transposed note is the sum, whenever that sum is
nonnegative. -/
lemma transposeNote_midi (p : Note) (k : Int) (h : 0 ≤ p.midiNumber + k) :
    (transposeNote p k).midiNumber = p.midiNumber + k := by
  obtain ⟨nm, heq, -⟩ := transposeNote_eval p k h
  rw [heq]

/-- A transposition landing on a nonnegative MIDI number yields a well-formed
note. -/
lemma transposeNote_wf (p : Note) (k : Int) (h : 0 ≤ p.midiNumber + k) :
    wellFormedNote (transposeNote p k) := by
  obtain ⟨nm, heq, hidx⟩ := transposeNote_eval p k h
  refine ⟨nm, ?_, ?_⟩ <;> rw [heq]
  have h0 := Int.emod_nonneg (p.midiNumber + k) (show (12 : Int) ≠ 0 by norm_num)
  have h12 := Int.emod_lt_of_pos (p.midiNumber + k) (show (0 : Int) < 12 by norm_num)
  simp only [hidx]
  omega

/-- Catalog facts about the interval patterns: each of the seven modes has a
7-element pattern that starts at 0, stays nonnegative and strictly ascends. -/
lemma mode_intervals_facts : ∀ mode : ModeName,
    (getMode mode).intervals.length = 7 ∧
    (getMode mode).intervals.get? 0 = some 0 ∧
    (∀ a ∈ (getMode mode).intervals, 0 ≤ a) ∧
    (getMode mode).intervals.Pairwise (fun a b => a < b) := by decide

/-- The MIDI number of a constructed note, by definition. -/
lemma createNote_midi (nm : Option NoteName) (octave : Int) :
    (createNote nm octave).midiNumber = (octave + 1) * 12 + noteIndex nm := rfl

/-- Mapping a strictly ascending list of nonnegative offsets over
`transposeNote` from a nonnegative base yields strictly ascending MIDI
numbers. -/
lemma pairwise_transpose (p : Note) (hp : 0 ≤ p.midiNumber) :
    ∀ ks : List Int, (∀ k ∈ ks, 0 ≤ k) → ks.Pairwise (fun a b => a < b) →
      (ks.map (fun k => transposeNote p k)).Pairwise
        (fun a b => a.midiNumber < b.midiNumber)
  | [], _, _ => by simp
  | k :: ks, hnn, hpw => by
    rw [List.map_cons, List.pairwise_cons]
    rcases List.pairwise_cons.mp hpw with ⟨hlt, htail⟩
    constructor
    · intro b hb
      rcases List.mem_map.mp hb with ⟨k', hk', rfl⟩
      have h1 : 0 ≤ p.midiNumber + k := by
        have := hnn k (by simp)
        omega
      have h2 : 0 ≤ p.midiNumber + k' := by
        have := hnn k' (List.mem_cons_of_mem _ hk')
        omega
      rw [transposeNote_midi p k h1, transposeNote_midi p k' h2]
      have := hlt k' hk'
      omega
    · exact pairwise_transpose p hp ks
        (fun k' hk' => hnn k' (List.mem_cons_of_mem _ hk')) htail

/-- C1: for every valid root, mode and octave (any octave from -1 up, so that
the root's MIDI number is nonnegative), `generateScale` returns exactly 7
pitches, strictly ascending in MIDI number; the first pitch's name is the
root; degree `i` (0-indexed) is the transposition of the root pitch by
`mode.intervals[i]`; and each pitch's interval from the first equals the
mode's interval-pattern entry. -/
theorem generateScale_spec (root : NoteName) (mode : ModeName) (octave : Int)
    (h : -1 ≤ octave) :
    ((generateScale root mode octave).notes.length = 7) ∧
    ((generateScale root mode octave).notes.Pairwise
        (fun a b => a.midiNumber < b.midiNumber)) ∧
    (((generateScale root mode octave).notes.head?).map Note.name =
        some (some root)) ∧
    (∀ i : Nat, (generateScale root mode octave).notes.get? i =
        ((getMode mode).intervals.get? i).map
          (fun k => transposeNote (createNote (some root) octave) k)) ∧
    (∀ i a n n₀, (getMode mode).intervals.get? i = some a →
        (generateScale root mode octave).notes.get? i = some n →
        (generateScale root mode octave).notes.get? 0 = some n₀ →
        n.midiNumber - n₀.midiNumber = a) := by
  obtain ⟨hlen, hget0, hnonneg, hasc⟩ := mode_intervals_facts mode
  have hroot := noteIndex_bounds root
  have hm : 0 ≤ (createNote (some root) octave).midiNumber := by
    rw [createNote_midi]
    omega
  have hnotes : (generateScale root mode octave).notes =
      (getMode mode).intervals.map
        (fun k => transposeNote (createNote (some root) octave) k) := rfl
  refine ⟨?_, ?_, ?_, ?_, ?_⟩
  · rw [hnotes, List.length_map, hlen]
  · rw [hnotes]
    exact pairwise_transpose _ hm _ hnonneg hasc
  · rw [hnotes, List.head?_map, ← List.get?_zero, hget0]
    obtain ⟨nm, heq, hidx⟩ :=
      transposeNote_eval (createNote (some root) octave) 0 (by omega)
    have hnm : nm = root := by
      refine noteIndex_inj nm root ?_
      rw [hidx, createNote_midi]
      omega
    simp only [Option.map_some']
    rw [heq]
    subst hnm
    rfl
  · intro i
    rw [hnotes, List.get?_map]
  · intro i a n n₀ ha hn hn₀
    rw [hnotes, List.get?_map, ha] at hn
    rw [hnotes, List.get?_map, hget0] at hn₀
    simp only [Option.map_some'] at hn hn₀
    have hamem : a ∈ (getMode mode).intervals := List.get?_mem ha
    have hannn : 0 ≤ a := hnonneg a hamem
    have h1 : (transposeNote (createNote (some root) octave) a).midiNumber =
        (createNote (some root) octave).midiNumber + a :=
      transposeNote_midi _ a (by omega)
    have h2 : (transposeNote (createNote (some root) octave) 0).midiNumber =
        (createNote (some root) octave).midiNumber + 0 :=
      transposeNote_midi _ 0 (by omega)
    rw [← Option.some_inj.mp hn, ← Option.some_inj.mp hn₀, h1, h2]
    omega

/-- Witness for C1 at root C, ionian, octave 4. -/
theorem generateScale_spec_witness :
    ((-1 : Int) ≤ 4) ∧
    (((generateScale .C .ionian 4).notes.length = 7) ∧
     ((generateScale .C .ionian 4).notes.Pairwise
         (fun a b => a.midiNumber < b.midiNumber)) ∧
     (((generateScale .C .ionian 4).notes.head?).map Note.name =
         some (some .C)) ∧
     (∀ i : Nat, (generateScale .C .ionian 4).notes.get? i =
         ((getMode .ionian).intervals.get? i).map
           (fun k => transposeNote (createNote (some .C) 4) k)) ∧
     (∀ i a n n₀, (getMode .ionian).intervals.get? i = some a →
         (generateScale .C .ionian 4).notes.get? i = some n →
         (generateScale .C .ionian 4).notes.get? 0 = some n₀ →
         n.midiNumber - n₀.midiNumber = a)) :=
  ⟨by norm_num, generateScale_spec .C .ionian 4 (by norm_num)⟩

/-- A note constructed from a real name is well formed by construction. -/
lemma createNote_wf (nm : NoteName) (octave : Int) :
    wellFormedNote (createNote (some nm) octave) := by
  unfold wellFormedNote
  exact ⟨nm, rfl, rfl⟩

/-- JavaScript remainder of a negative dividend by 12: the negated remainder
of the negation. -/
lemma jsMod_neg (a : Int) (h : a < 0) : jsMod a 12 = -((-a) % 12) := by
  unfold jsMod
  match a, h with
  | Int.negSucc m, _ => rfl

/-- C7 counterexample: the transpose round trip is not the identity on every
pitch and integer — starting from C(-1) (MIDI 0), transposing down one
semitone and back up does not reproduce the pitch (the intermediate MIDI
number -1 has no name in the table and the note is rebuilt from garbage). -/
theorem transposeNote_roundtrip_counterexample :
    transposeNote (transposeNote (createNote (some .C) (-1)) (-1)) 1 ≠
      createNote (some .C) (-1) := by decide

/-- C7 (amended): for a well-formed pitch with nonnegative MIDI number and a
transposition amount that keeps the MIDI number nonnegative, transposing by
`n` and then by `-n` reproduces the original pitch exactly — equal name,
octave and MIDI number (the whole note value), hence equal frequency. -/
theorem transposeNote_roundtrip (p : Note) (n : Int)
    (hwf : wellFormedNote p) (h0 : 0 ≤ p.midiNumber)
    (h1 : 0 ≤ p.midiNumber + n) :
    transposeNote (transposeNote p n) (-n) = p ∧
    noteFrequency (transposeNote (transposeNote p n) (-n)) = noteFrequency p := by
  obtain ⟨nm, hname, hmidi⟩ := hwf
  have hb := noteIndex_bounds nm
  have hq : (transposeNote p n).midiNumber = p.midiNumber + n :=
    transposeNote_midi p n h1
  have h2 : 0 ≤ (transposeNote p n).midiNumber + -n := by omega
  obtain ⟨nm₂, heq₂, hidx₂⟩ := transposeNote_eval (transposeNote p n) (-n) h2
  rw [hq] at heq₂ hidx₂
  have hsum : p.midiNumber + n + -n = p.midiNumber := by omega
  rw [hsum] at heq₂ hidx₂
  have hnm₂ : nm₂ = nm := by
    refine noteIndex_inj nm₂ nm ?_
    rw [hidx₂]
    omega
  subst hnm₂
  have hmain : transposeNote (transposeNote p n) (-n) = p := by
    rw [heq₂]
    have ho : p.midiNumber / 12 - 1 = p.octave := by omega
    rw [ho, ← hname]
  exact ⟨hmain, by rw [hmain]⟩

/-- Witness for C7 (amended) at C4 transposed by a fifth. -/
theorem transposeNote_roundtrip_witness :
    wellFormedNote (createNote (some .C) 4) ∧
    0 ≤ (createNote (some .C) 4).midiNumber ∧
    0 ≤ (createNote (some .C) 4).midiNumber + 7 ∧
    (transposeNote (transposeNote (createNote (some .C) 4) 7) (-7) =
        createNote (some .C) 4 ∧
      noteFrequency (transposeNote (transposeNote (createNote (some .C) 4) 7) (-7)) =
        noteFrequency (createNote (some .C) 4)) :=
  ⟨by decide, by decide, by decide,
   transposeNote_roundtrip (createNote (some .C) 4) 7
     (by decide) (by decide) (by decide)⟩

/-- C10 counterexample: a negative target MIDI number does not always produce
a malformed note — from C(-1) (MIDI 0) down an octave, the target MIDI number
-12 is negative, yet the JavaScript remainder is `-0`, which indexes entry 0
of the name table, and the rebuilt note C(-2) is well formed. -/
theorem transposeNote_name_safety_counterexample :
    (createNote (some .C) (-1)).midiNumber + (-12) < 0 ∧
    wellFormedNote (transposeNote (createNote (some .C) (-1)) (-12)) := by
  constructor
  · decide
  · exact createNote_wf .C (-2)

/-- C10 (amended): transposing a valid note to a nonnegative MIDI number
yields a well-formed note whose MIDI number is the sum; transposing to a
negative MIDI number not divisible by 12 makes the remainder negative, the
table lookup miss, and the result malformed (its name is `undefined`); but a
negative MIDI number divisible by 12 hits the `-0` remainder, the lookup
returns C, and the result is well formed. -/
theorem transposeNote_name_safety :
    (∀ p n, wellFormedNote p → 0 ≤ p.midiNumber + n →
        wellFormedNote (transposeNote p n) ∧
        (transposeNote p n).midiNumber = p.midiNumber + n) ∧
    (∀ (p : Note) (n : Int), p.midiNumber + n < 0 → ¬ (12 ∣ (p.midiNumber + n)) →
        jsMod (p.midiNumber + n) 12 < 0 ∧
        (transposeNote p n).name = none ∧
        ¬ wellFormedNote (transposeNote p n)) ∧
    (∀ (p : Note) (n : Int), p.midiNumber + n < 0 → (12 ∣ (p.midiNumber + n)) →
        (transposeNote p n).name = some .C ∧
        wellFormedNote (transposeNote p n)) := by
  refine ⟨fun p n _ h => ⟨transposeNote_wf p n h, transposeNote_midi p n h⟩, ?_, ?_⟩
  · intro p n hneg hndvd
    have hm := jsMod_neg (p.midiNumber + n) hneg
    have hlt : jsMod (p.midiNumber + n) 12 < 0 := by omega
    have hnone : getNoteName (p.midiNumber + n) = none := by
      unfold getNoteName jsArrayGet
      rw [if_pos hlt]
    refine ⟨hlt, ?_, ?_⟩
    · show (createNote (getNoteName (p.midiNumber + n)) _).name = none
      rw [hnone]
      rfl
    · intro hwf
      obtain ⟨nm, hname, -⟩ := hwf
      have : (transposeNote p n).name = none := by
        show (createNote (getNoteName (p.midiNumber + n)) _).name = none
        rw [hnone]
        rfl
      rw [this] at hname
      exact Option.noConfusion hname
  · intro p n hneg hdvd
    have hm := jsMod_neg (p.midiNumber + n) hneg
    have hz : jsMod (p.midiNumber + n) 12 = 0 := by omega
    have hc : getNoteName (p.midiNumber + n) = some .C := by
      unfold getNoteName
      rw [hz]
      decide
    constructor
    · show (createNote (getNoteName (p.midiNumber + n)) _).name = some .C
      rw [hc]
      rfl
    · show wellFormedNote (createNote (getNoteName (p.midiNumber + n)) _)
      rw [hc]
      exact createNote_wf .C _

/-- Witness for C10 (amended): the well-formed branch at C4 up a third, the
malformed branch at C(-1) down a semitone, and the divisible branch at C(-1)
down an octave. -/
theorem transposeNote_name_safety_witness :
    (wellFormedNote (createNote (some .C) 4) ∧
      0 ≤ (createNote (some .C) 4).midiNumber + 4 ∧
      (wellFormedNote (transposeNote (createNote (some .C) 4) 4) ∧
        (transposeNote (createNote (some .C) 4) 4).midiNumber =
          (createNote (some .C) 4).midiNumber + 4)) ∧
    ((createNote (some .C) (-1)).midiNumber + (-1) < 0 ∧
      ¬ (12 ∣ ((createNote (some .C) (-1)).midiNumber + (-1))) ∧
      (jsMod ((createNote (some .C) (-1)).midiNumber + (-1)) 12 < 0 ∧
        (transposeNote (createNote (some .C) (-1)) (-1)).name = none ∧
        ¬ wellFormedNote (transposeNote (createNote (some .C) (-1)) (-1)))) ∧
    ((createNote (some .C) (-1)).midiNumber + (-12) < 0 ∧
      (12 ∣ ((createNote (some .C) (-1)).midiNumber + (-12))) ∧
      ((transposeNote (createNote (some .C) (-1)) (-12)).name = some .C ∧
        wellFormedNote (transposeNote (createNote (some .C) (-1)) (-12)))) :=
  ⟨⟨by decide, by decide,
    transposeNote_name_safety.1 (createNote (some .C) 4) 4 (by decide) (by decide)⟩,
   ⟨by decide, by decide,
    transposeNote_name_safety.2.1 (createNote (some .C) (-1)) (-1) (by decide) (by decide)⟩,
   ⟨by decide, by decide,
    transposeNote_name_safety.2.2 (createNote (some .C) (-1)) (-12) (by decide) (by decide)⟩⟩

/-- A generated scale always has exactly 7 notes, whatever the root and
octave. -/
lemma scale_notes_length (root : NoteName) (mode : ModeName) (octave : Int) :
    (generateScale root mode octave).notes.length = 7 := by
  show ((getMode mode).intervals.map _).length = 7
  rw [List.length_map]
  exact (mode_intervals_facts mode).1

/-- Array access succeeds exactly on indices inside the array. -/
lemma jsArrayGet_isSome (l : List α) (i : Int) :
    (jsArrayGet l i).isSome ↔ 0 ≤ i ∧ i.toNat < l.length := by
  unfold jsArrayGet
  split_ifs with h
  · simp only [Option.isSome_none, Bool.false_eq_true, false_iff]
    omega
  · constructor
    · intro hs
      refine ⟨by omega, ?_⟩
      by_contra hge
      rw [List.get?_eq_none.mpr (by omega)] at hs
      exact Bool.noConfusion hs
    · rintro ⟨-, hlt⟩
      rw [List.get?_eq_get hlt]
      rfl

/-- Catalog fact: every diatonic chord definition's degree lies in 1..7. -/
lemma commonChords_degree_bounds : ∀ mode : ModeName,
    ∀ cd ∈ (getMode mode).commonChords, 1 ≤ cd.degree ∧ cd.degree ≤ 7 := by
  decide

/-- Catalog fact: locrian's chord list stops at degree 5. -/
lemma locrian_degree_le :
    ∀ cd ∈ (getMode .locrian).commonChords, cd.degree ≤ 5 := by decide

/-- Catalog fact: every degree in 1..7 has a chord definition, except
degrees 6 and 7 in locrian. -/
lemma degree_mem_commonChords (mode : ModeName) (d : Int)
    (h1 : 1 ≤ d) (h7 : d ≤ 7) (hnl : ¬(mode = .locrian ∧ 6 ≤ d)) :
    ∃ cd ∈ (getMode mode).commonChords, cd.degree = d := by
  cases mode <;> interval_cases d <;>
    first
      | decide
      | (exact absurd ⟨rfl, by omega⟩ hnl)

/-- Unfolding equation for `generateDiatonicChords`. -/
lemma generateDiatonicChords_eq (root : NoteName) (mode : ModeName) (octave : Int) :
    generateDiatonicChords root mode octave =
      (getMode mode).commonChords.map (fun chordDef =>
        (jsArrayGet (generateScale root mode octave).notes (chordDef.degree - 1)).map
          (fun chordRoot =>
            { buildChord chordRoot chordDef.quality with
                romanNumeral := some chordDef.romanNumeral
                function := some chordDef.function })) := rfl

/-- C2 counterexample: for locrian the diatonic-chord sequence does not have
7 entries (the catalog defines only the five degrees 1..5 there). -/
theorem generateDiatonicChords_counterexample :
    (generateDiatonicChords .C .locrian 4).length ≠ 7 := by decide

/-- C2 (amended): `generateDiatonicChords` returns one chord per entry of the
mode's diatonic chord-definition list, in scale-degree order — 7 chords for
every mode except locrian, which has only 5 (degrees 1..5).  Entry `i` is a
constructed chord rooted at `scale.notes[degree - 1]`, built with the
definition's quality, carrying the definition's Roman numeral and function.
The function is pure, so the same (root, mode, octave) always yields the same
chords in the same order. -/
theorem generateDiatonicChords_spec (root : NoteName) (mode : ModeName)
    (octave : Int) :
    ((generateDiatonicChords root mode octave).length =
        (getMode mode).commonChords.length) ∧
    (mode = .locrian → (generateDiatonicChords root mode octave).length = 5) ∧
    (mode ≠ .locrian → (generateDiatonicChords root mode octave).length = 7) ∧
    (∀ i cd, (getMode mode).commonChords.get? i = some cd →
        ∃ ch, (generateDiatonicChords root mode octave).get? i = some (some ch) ∧
          jsArrayGet (generateScale root mode octave).notes (cd.degree - 1) =
            some ch.root ∧
          ch.quality = cd.quality ∧
          ch.romanNumeral = some cd.romanNumeral ∧
          ch.function = some cd.function ∧
          ch.notes = (getChordIntervals cd.quality).map
            (fun k => transposeNote ch.root k)) := by
  have hlen : (generateDiatonicChords root mode octave).length =
      (getMode mode).commonChords.length := by
    rw [generateDiatonicChords_eq, List.length_map]
  refine ⟨hlen, ?_, ?_, ?_⟩
  · intro hm
    subst hm
    rw [hlen]
    decide
  · intro hm
    rw [hlen]
    cases mode
    case locrian => exact absurd rfl hm
    all_goals decide
  · intro i cd h
    have hdeg := commonChords_degree_bounds mode cd (List.get?_mem h)
    have hslen := scale_notes_length root mode octave
    have hin : (jsArrayGet (generateScale root mode octave).notes
        (cd.degree - 1)).isSome := by
      rw [jsArrayGet_isSome, hslen]
      omega
    obtain ⟨chordRoot, hcr⟩ := Option.isSome_iff_exists.mp hin
    refine ⟨{ buildChord chordRoot cd.quality with
        romanNumeral := some cd.romanNumeral
        function := some cd.function }, ?_, hcr, rfl, rfl, rfl, rfl⟩
    rw [generateDiatonicChords_eq, List.get?_map, h, Option.map_some', hcr,
      Option.map_some']

/-- Witness for C2 (amended): the locrian and non-locrian length branches and
the per-entry property at ionian's first chord definition. -/
theorem generateDiatonicChords_spec_witness :
    ((generateDiatonicChords .C .locrian 4).length = 5) ∧
    ((generateDiatonicChords .C .ionian 4).length = 7) ∧
    ((getMode .ionian).commonChords.get? 0 =
        some { romanNumeral := "I", degree := 1, quality := .major,
               intervals := [0, 4, 7], name := "Maj", function := .tonic }) ∧
    (∃ ch, (generateDiatonicChords .C .ionian 4).get? 0 = some (some ch) ∧
      jsArrayGet (generateScale .C .ionian 4).notes
          (({ romanNumeral := "I", degree := 1, quality := .major,
              intervals := [0, 4, 7], name := "Maj",
              function := .tonic } : ChordDefinition).degree - 1) =
        some ch.root ∧
      ch.quality = ChordQuality.major ∧
      ch.romanNumeral = some "I" ∧
      ch.function = some HarmonicFunction.tonic ∧
      ch.notes = (getChordIntervals ChordQuality.major).map
        (fun k => transposeNote ch.root k)) :=
  ⟨(generateDiatonicChords_spec .C .locrian 4).2.1 rfl,
   (generateDiatonicChords_spec .C .ionian 4).2.2.1 (by decide),
   by decide,
   (generateDiatonicChords_spec .C .ionian 4).2.2.2 0
     { romanNumeral := "I", degree := 1, quality := .major,
       intervals := [0, 4, 7], name := "Maj", function := .tonic }
     (by decide)⟩

/-- Unfolding equation for `buildChordFromDegree`. -/
lemma buildChordFromDegree_eq (root : NoteName) (mode : ModeName)
    (degree : Int) (octave : Int) :
    buildChordFromDegree root mode degree octave =
      match (getMode mode).commonChords.find? (fun c => c.degree == degree) with
      | none => none
      | some chordDef =>
        (jsArrayGet (generateScale root mode octave).notes (degree - 1)).map
          (fun chordRoot =>
            { buildChord chordRoot chordDef.quality with
                romanNumeral := some chordDef.romanNumeral
                function := some chordDef.function }) := rfl

/-- C3 counterexample: locrian degree 6 lies inside 1..7 yet
`buildChordFromDegree` returns "not found". -/
theorem buildChordFromDegree_counterexample :
    buildChordFromDegree .C .locrian 6 4 = none ∧
    (1 ≤ (6 : Int) ∧ (6 : Int) ≤ 7) := by decide

/-- C3 (amended): `buildChordFromDegree` constructs a chord exactly for the
degrees that have a diatonic chord definition — every degree in 1..7 for the
six modes other than locrian, and only degrees 1..5 for locrian; outside
those it returns "not found" (`none`). -/
theorem buildChordFromDegree_spec (root : NoteName) (mode : ModeName)
    (degree : Int) (octave : Int) :
    (buildChordFromDegree root mode degree octave).isSome ↔
      (1 ≤ degree ∧ degree ≤ 7 ∧ ¬(mode = .locrian ∧ 6 ≤ degree)) := by
  rw [buildChordFromDegree_eq]
  constructor
  · intro h
    cases hfind : (getMode mode).commonChords.find? (fun c => c.degree == degree) with
    | none =>
      rw [hfind] at h
      exact Bool.noConfusion h
    | some cd =>
      have hmem := List.mem_of_find?_eq_some hfind
      have hbeq : cd.degree = degree := by
        have := List.find?_some hfind
        exact eq_of_beq this
      have hbounds := commonChords_degree_bounds mode cd hmem
      refine ⟨by omega, by omega, ?_⟩
      rintro ⟨hml, h6⟩
      subst hml
      have := locrian_degree_le cd hmem
      omega
  · rintro ⟨h1, h7, hnl⟩
    obtain ⟨cd, hmem, hdeg⟩ := degree_mem_commonChords mode degree h1 h7 hnl
    have hfs : ((getMode mode).commonChords.find?
        (fun c => c.degree == degree)).isSome := by
      rw [List.find?_isSome]
      exact ⟨cd, hmem, by rw [hdeg]; exact beq_self_eq_true degree⟩
    obtain ⟨cd', hfind⟩ := Option.isSome_iff_exists.mp hfs
    rw [hfind]
    simp only [Option.isSome_map']
    rw [jsArrayGet_isSome, scale_notes_length]
    omega

/-- C4: with the sustain pedal down, pressing (and physically releasing) the
same mapped key `a` three times before any Audio Sink release calls `attack`
three times for that pitch (C4, MIDI 60) and leaves the pitch registered in
`sustainedNotes`; the following pedal-up calls `release` exactly once for
that pitch, empties `sustainedNotes`, and leaves `heldNotes` untouched. -/
theorem sustainCompounding_spec :
    (attackCount (runEvents demoState sustainCompoundEvents).2 60 = 3) ∧
    (jsMapHas (runEvents demoState sustainCompoundEvents).1.sustainedNotes 60 =
      true) ∧
    (releaseCount (stepEvent (runEvents demoState sustainCompoundEvents).1
        (keyUpEvent " " "Space")).2 60 = 1) ∧
    ((stepEvent (runEvents demoState sustainCompoundEvents).1
        (keyUpEvent " " "Space")).1.sustainedNotes = []) ∧
    ((stepEvent (runEvents demoState sustainCompoundEvents).1
        (keyUpEvent " " "Space")).1.heldNotes =
      (runEvents demoState sustainCompoundEvents).1.heldNotes) := by decide

/-- C5: with the pedal off, pressing the mapped key `a` and releasing it
leaves `heldNotes` empty and the complete call log is one attack of C4
followed by its release (zero outstanding voices); a second key-down of the
same physical key without an intervening key-up is a state no-op, so
auto-repeat produces exactly one attack call in total. -/
theorem keyPressRelease_spec :
    ((runEvents demoState [keyDownEvent "a" "KeyA", keyUpEvent "a" "KeyA"]).1.heldNotes
        = []) ∧
    ((runEvents demoState [keyDownEvent "a" "KeyA", keyUpEvent "a" "KeyA"]).2 =
      [.attackNote (createNote (some .C) 4),
       .releaseNote (createNote (some .C) 4)]) ∧
    ((runEvents demoState [keyDownEvent "a" "KeyA", keyDownEvent "a" "KeyA"]).1 =
      (runEvents demoState [keyDownEvent "a" "KeyA"]).1) ∧
    ((runEvents demoState [keyDownEvent "a" "KeyA", keyDownEvent "a" "KeyA"]).2 =
      [.attackNote (createNote (some .C) 4)]) := by decide

/-- C6: on window blur with performance mode enabled, while 2 notes are held
(C4 and D4, keys `a`/`s` down, pedal engaged afterwards) and 1 note is
sustained (E4, struck and released under the pedal), the blur issues the
natural-envelope restore followed by exactly 3 release calls — every
sustained and every held pitch — and afterwards all four tracking collections
are empty. -/
theorem windowBlur_spec :
    ((runEvents demoState blurSetupEvents).1.heldNotes.length = 2) ∧
    ((runEvents demoState blurSetupEvents).1.sustainedNotes.length = 1) ∧
    ((stepEvent (runEvents demoState blurSetupEvents).1 .windowBlur).2 =
      [.disableSustain,
       .releaseNote (createNote (some .E) 4),
       .releaseNote (createNote (some .C) 4),
       .releaseNote (createNote (some .D) 4)]) ∧
    ((releaseCalls (stepEvent (runEvents demoState blurSetupEvents).1
        .windowBlur).2).length = 3) ∧
    ((stepEvent (runEvents demoState blurSetupEvents).1 .windowBlur).1.pressedKeys
        = []) ∧
    ((stepEvent (runEvents demoState blurSetupEvents).1 .windowBlur).1.heldNotes
        = []) ∧
    ((stepEvent (runEvents demoState blurSetupEvents).1 .windowBlur).1.sustainedNotes
        = []) ∧
    ((stepEvent (runEvents demoState blurSetupEvents).1 .windowBlur).1.keyToNotes
        = []) := by decide

/-- C9 counterexample: not every mapping entry of the shipped layout has an
octave offset in {-1, 0, +1} — the `i` key (the upper row's octave note)
carries offset +2. -/
theorem keyboardLayout_counterexample :
    ¬ (∀ m ∈ SCALE_DEGREE_LAYOUT.mappings,
        m.octaveOffset = -1 ∨ m.octaveOffset = 0 ∨ m.octaveOffset = 1) := by
  decide

/-- C9 (amended): every mapping entry of the shipped scale-degree layout has
`scaleDegree` in 1..7 and `octaveOffset` in {-1, 0, +1, +2}, where offset +2
occurs only on the `i` key; and none of the three reserved control keys
(toggle, sustain, help) equals the physical key of any mapping entry. -/
theorem keyboardLayout_spec :
    (∀ m ∈ SCALE_DEGREE_LAYOUT.mappings,
        1 ≤ m.scaleDegree ∧ m.scaleDegree ≤ 7) ∧
    (∀ m ∈ SCALE_DEGREE_LAYOUT.mappings,
        m.octaveOffset = -1 ∨ m.octaveOffset = 0 ∨ m.octaveOffset = 1 ∨
          m.octaveOffset = 2) ∧
    (∀ m ∈ SCALE_DEGREE_LAYOUT.mappings, m.octaveOffset = 2 → m.key = "i") ∧
    (∀ m ∈ SCALE_DEGREE_LAYOUT.mappings,
        SCALE_DEGREE_LAYOUT.toggleKey ≠ m.key ∧
        SCALE_DEGREE_LAYOUT.sustainKey ≠ m.key ∧
        SCALE_DEGREE_LAYOUT.helpKey ≠ m.key) := by decide

/-- Inserting descending-stably is a permutation with consing. -/
lemma insertByScoreDesc_perm (x : ModeScore) (l : List ModeScore) :
    List.Perm (insertByScoreDesc x l) (x :: l) := by
  induction l with
  | nil => exact List.Perm.refl _
  | cons y t ih =>
    unfold insertByScoreDesc
    split_ifs with h
    · exact (ih.cons y).trans (List.Perm.swap x y t)
    · exact List.Perm.refl _

/-- The stable descending sort permutes its input. -/
lemma sortByScoreDesc_perm_aux :
    ∀ (l acc : List ModeScore),
      List.Perm (l.foldl (fun acc x => insertByScoreDesc x acc) acc) (acc ++ l)
  | [], acc => by simp
  | x :: t, acc => by
    refine (sortByScoreDesc_perm_aux t (insertByScoreDesc x acc)).trans ?_
    refine (((insertByScoreDesc_perm x acc).append_right t).trans ?_)
    exact List.perm_middle.symm

/-- The stable descending sort permutes its input. -/
lemma sortByScoreDesc_perm (l : List ModeScore) : List.Perm (sortByScoreDesc l) l := by
  simpa using sortByScoreDesc_perm_aux l []

/-- Insertion preserves descending sortedness by score. -/
lemma insertByScoreDesc_sorted (x : ModeScore) (l : List ModeScore)
    (hl : l.Sorted (fun a b => b.score ≤ a.score)) :
    (insertByScoreDesc x l).Sorted (fun a b => b.score ≤ a.score) := by
  induction l with
  | nil => simp [insertByScoreDesc]
  | cons y t ih =>
    rw [List.sorted_cons] at hl
    unfold insertByScoreDesc
    split_ifs with hxy
    · rw [List.sorted_cons]
      refine ⟨?_, ih hl.2⟩
      intro b hb
      rcases List.mem_cons.mp ((insertByScoreDesc_perm x t).mem_iff.mp hb) with rfl | hb
      · exact hxy
      · exact hl.1 b hb
    · rw [List.sorted_cons]
      refine ⟨?_, List.sorted_cons.mpr hl⟩
      intro b hb
      rcases List.mem_cons.mp hb with rfl | hb
      · exact le_of_not_le hxy
      · exact le_trans (hl.1 b hb) (le_of_not_le hxy)

/-- Folding stable insertion over any list keeps the accumulator sorted
descending by score. -/
lemma sortByScoreDesc_sorted_aux :
    ∀ (l acc : List ModeScore),
      acc.Sorted (fun a b => b.score ≤ a.score) →
      (l.foldl (fun acc x => insertByScoreDesc x acc) acc).Sorted
        (fun a b => b.score ≤ a.score)
  | [], _, hacc => hacc
  | x :: t, acc, hacc =>
    sortByScoreDesc_sorted_aux t (insertByScoreDesc x acc)
      (insertByScoreDesc_sorted x acc hacc)

/-- The stable sort is sorted descending by score. -/
lemma sortByScoreDesc_sorted (l : List ModeScore) :
    (sortByScoreDesc l).Sorted (fun a b => b.score ≤ a.score) :=
  sortByScoreDesc_sorted_aux l [] (List.sorted_nil)

/-- Membership in the deduplication accumulator recursion. -/
lemma mem_dedupFirstAux [DecidableEq α] (x : α) :
    ∀ (l seen : List α), (x ∈ dedupFirstAux seen l ↔ x ∈ l ∧ x ∉ seen)
  | [], seen => by simp [dedupFirstAux]
  | a :: t, seen => by
    unfold dedupFirstAux
    split_ifs with ha
    · rw [mem_dedupFirstAux x t seen]
      constructor
      · rintro ⟨hx, hs⟩
        exact ⟨List.mem_cons_of_mem _ hx, hs⟩
      · rintro ⟨hx, hs⟩
        rcases List.mem_cons.mp hx with rfl | hx
        · exact absurd ha hs
        · exact ⟨hx, hs⟩
    · constructor
      · intro hx
        rcases List.mem_cons.mp hx with rfl | hx
        · exact ⟨List.mem_cons_self _ _, ha⟩
        · rcases (mem_dedupFirstAux x t (a :: seen)).mp hx with ⟨hxt, hs⟩
          exact ⟨List.mem_cons_of_mem _ hxt,
            fun hmem => hs (List.mem_cons_of_mem _ hmem)⟩
      · rintro ⟨hx, hs⟩
        by_cases hxa : x = a
        · exact hxa ▸ List.mem_cons_self _ _
        · rcases List.mem_cons.mp hx with rfl | hxt
          · exact absurd rfl hxa
          · refine List.mem_cons_of_mem _
              ((mem_dedupFirstAux x t (a :: seen)).mpr ⟨hxt, ?_⟩)
            intro hmem
            rcases List.mem_cons.mp hmem with rfl | hmem
            · exact hxa rfl
            · exact hs hmem

/-- The deduplication recursion never produces duplicates. -/
lemma nodup_dedupFirstAux [DecidableEq α] :
    ∀ (l seen : List α), (dedupFirstAux seen l).Nodup
  | [], _ => List.nodup_nil
  | a :: t, seen => by
    unfold dedupFirstAux
    split_ifs with ha
    · exact nodup_dedupFirstAux t seen
    · refine List.nodup_cons.mpr ⟨?_, nodup_dedupFirstAux t (a :: seen)⟩
      intro hmem
      exact ((mem_dedupFirstAux a t (a :: seen)).mp hmem).2
        (List.mem_cons_self _ _)

/-- Keeping first occurrences yields a duplicate-free list. -/
lemma dedupFirst_nodup [DecidableEq α] (l : List α) : (dedupFirst l).Nodup :=
  nodup_dedupFirstAux l []

/-- One score entry per (mode, candidate root) pair. -/
lemma modeScoresFor_length (notes : List Note) (pr : Option NoteName) :
    (modeScoresFor notes pr).length = 7 * (rootsToTest pr).length := by
  simp [modeScoresFor, modesKeyOrder]
  ring

/-- Mode projection of a score entry. -/
lemma scoreEntry_mode (mn : ModeName) (q : ℚ) :
    (if q = 1 then ({ mode := mn, score := q + 1/10 } : ModeScore)
     else { mode := mn, score := q }).mode = mn := by
  split_ifs <;> rfl

/-- Score projection of a score entry: the raw ratio plus the bonus exactly
when the ratio is 1. -/
lemma scoreEntry_score (mn : ModeName) (q : ℚ) :
    (if q = 1 then ({ mode := mn, score := q + 1/10 } : ModeScore)
     else { mode := mn, score := q }).score =
      (if q = 1 then q + 1/10 else q) := by
  split_ifs <;> rfl

/-- Every score entry comes from a candidate root and one of the seven modes,
and carries the ratio of matching pitch classes, with the +0.1 bonus exactly
when the ratio is 1. -/
lemma modeScoresFor_mem (notes : List Note) (pr : Option NoteName)
    (e : ModeScore) (he : e ∈ modeScoresFor notes pr) :
    ∃ root ∈ rootsToTest pr, ∃ mn ∈ modesKeyOrder, e.mode = mn ∧
      e.score =
        (if ((countMatching (uniquePitchClasses notes)
              (scalePitchClasses root mn) : ℚ) /
              ((uniquePitchClasses notes).length : ℚ)) = 1 then
          ((countMatching (uniquePitchClasses notes)
              (scalePitchClasses root mn) : ℚ) /
              ((uniquePitchClasses notes).length : ℚ)) + 1/10
        else
          ((countMatching (uniquePitchClasses notes)
              (scalePitchClasses root mn) : ℚ) /
              ((uniquePitchClasses notes).length : ℚ))) := by
  rcases List.mem_flatMap.mp he with ⟨mn, hmn, hmem⟩
  rcases List.mem_map.mp hmem with ⟨root, hroot, heq⟩
  refine ⟨root, hroot, mn, hmn, ?_, ?_⟩
  · rw [← heq]
    exact scoreEntry_mode mn _
  · rw [← heq]
    exact scoreEntry_score mn _

/-- No score exceeds 11/10 (perfect match plus bonus) when any pitch class is
sounding. -/
lemma modeScoresFor_score_le (notes : List Note) (pr : Option NoteName)
    (hne : uniquePitchClasses notes ≠ []) :
    ∀ e ∈ modeScoresFor notes pr, e.score ≤ 11/10 := by
  intro e he
  obtain ⟨root, -, mn, -, -, hs⟩ := modeScoresFor_mem notes pr e he
  have hlenpos : 0 < ((uniquePitchClasses notes).length : ℚ) := by
    have hpos : 0 < (uniquePitchClasses notes).length :=
      List.length_pos.mpr hne
    exact_mod_cast hpos
  have hcount : countMatching (uniquePitchClasses notes)
      (scalePitchClasses root mn) ≤ (uniquePitchClasses notes).length :=
    List.length_filter_le _ _
  have hraw : ((countMatching (uniquePitchClasses notes)
      (scalePitchClasses root mn) : ℚ) /
      ((uniquePitchClasses notes).length : ℚ)) ≤ 1 := by
    rw [div_le_one hlenpos]
    exact_mod_cast hcount
  rw [hs]
  split_ifs with h
  · rw [h]
    norm_num
  · linarith

/-- Sounding pitch classes of the C-major scenario. -/
lemma cMajor_unique_eval :
    uniquePitchClasses cMajorSounding = [0, 2, 4, 5, 7, 9, 11] := by decide

/-- Score table of the C-major scenario with candidate root C: locrian 2/7,
phrygian 3/7, aeolian 4/7, dorian 5/7, mixolydian 6/7, ionian 1 + 0.1 bonus,
lydian 6/7, in `Object.keys` order. -/
lemma cMajor_scores_eval : modeScoresFor cMajorSounding (some .C) =
    [⟨.locrian, 2/7⟩, ⟨.phrygian, 3/7⟩, ⟨.aeolian, 4/7⟩, ⟨.dorian, 5/7⟩,
     ⟨.mixolydian, 6/7⟩, ⟨.ionian, 11/10⟩, ⟨.lydian, 6/7⟩] := by
  simp only [modeScoresFor, modesKeyOrder, rootsToTest, List.flatMap_cons,
    List.flatMap_nil, List.map_cons, List.map_nil, List.append_nil,
    List.cons_append, List.nil_append,
    show countMatching (uniquePitchClasses cMajorSounding)
        (scalePitchClasses .C .locrian) = 2 from by decide,
    show countMatching (uniquePitchClasses cMajorSounding)
        (scalePitchClasses .C .phrygian) = 3 from by decide,
    show countMatching (uniquePitchClasses cMajorSounding)
        (scalePitchClasses .C .aeolian) = 4 from by decide,
    show countMatching (uniquePitchClasses cMajorSounding)
        (scalePitchClasses .C .dorian) = 5 from by decide,
    show countMatching (uniquePitchClasses cMajorSounding)
        (scalePitchClasses .C .mixolydian) = 6 from by decide,
    show countMatching (uniquePitchClasses cMajorSounding)
        (scalePitchClasses .C .ionian) = 7 from by decide,
    show countMatching (uniquePitchClasses cMajorSounding)
        (scalePitchClasses .C .lydian) = 6 from by decide,
    show (uniquePitchClasses cMajorSounding).length = 7 from by decide]
  norm_num

/-- Sorting the C-major score table: ionian first (1.1), then the stable tie
mixolydian before lydian (both 6/7), then descending ratios. -/
lemma cMajor_sorted_eval : sortByScoreDesc
    [⟨.locrian, 2/7⟩, ⟨.phrygian, 3/7⟩, ⟨.aeolian, 4/7⟩, ⟨.dorian, 5/7⟩,
     ⟨.mixolydian, 6/7⟩, ⟨.ionian, 11/10⟩, ⟨.lydian, 6/7⟩] =
    [⟨.ionian, 11/10⟩, ⟨.mixolydian, 6/7⟩, ⟨.lydian, 6/7⟩, ⟨.dorian, 5/7⟩,
     ⟨.aeolian, 4/7⟩, ⟨.phrygian, 3/7⟩, ⟨.locrian, 2/7⟩] := by
  norm_num [sortByScoreDesc, insertByScoreDesc]

/-- C8: `analyzeModeFromNotes` scores one entry per (mode, candidate-root)
pair as the ratio of sounding pitch classes matched by the scale, adds the
+0.1 bonus exactly when the ratio is 1, sorts descending by score (stably),
deduplicates by mode identity, and returns at most 3 distinct mode names; no
score can exceed 11/10; and on the seven C-major pitch classes with
candidate root C it returns ionian first — with the maximum achievable score
11/10 — ahead of mixolydian and lydian. -/
theorem analyzeModeFromNotes_spec :
    (∀ (notes : List Note) (pr : Option NoteName),
        (analyzeModeFromNotes notes pr).length ≤ 3 ∧
        (analyzeModeFromNotes notes pr).Nodup) ∧
    (∀ l : List ModeScore,
        (sortByScoreDesc l).Sorted (fun a b => b.score ≤ a.score) ∧
        List.Perm (sortByScoreDesc l) l) ∧
    (∀ (notes : List Note) (pr : Option NoteName),
        (modeScoresFor notes pr).length = 7 * (rootsToTest pr).length) ∧
    (∀ (mn : ModeName) (q : ℚ),
        (if q = 1 then ({ mode := mn, score := q + 1/10 } : ModeScore)
         else { mode := mn, score := q }).score = q + 1/10 ↔ q = 1) ∧
    (∀ (notes : List Note) (pr : Option NoteName),
        uniquePitchClasses notes ≠ [] →
        ∀ e ∈ modeScoresFor notes pr, e.score ≤ 11/10) ∧
    (analyzeModeFromNotes cMajorSounding (some .C) =
        [.ionian, .mixolydian, .lydian]) ∧
    (({ mode := .ionian, score := 11/10 } : ModeScore) ∈
        modeScoresFor cMajorSounding (some .C)) := by
  refine ⟨?_, ?_, ?_, ?_, ?_, ?_, ?_⟩
  · intro notes pr
    constructor
    · exact List.length_take_le 3 _
    · exact (List.take_sublist 3 _).nodup (dedupFirst_nodup _)
  · exact fun l => ⟨sortByScoreDesc_sorted l, sortByScoreDesc_perm l⟩
  · exact modeScoresFor_length
  · intro mn q
    constructor
    · intro hsc
      by_contra hq
      rw [if_neg hq] at hsc
      have : q = q + 1/10 := hsc
      linarith
    · intro hq
      rw [if_pos hq]
  · exact modeScoresFor_score_le
  · show (dedupFirst ((sortByScoreDesc
        (modeScoresFor cMajorSounding (some .C))).map (fun m => m.mode))).take 3 =
      [.ionian, .mixolydian, .lydian]
    rw [cMajor_scores_eval, cMajor_sorted_eval]
    decide
  · rw [cMajor_scores_eval]
    simp

/-- Witness for C8's hypothesis-bearing conjunct: on the C-major scenario the
sounding pitch-class set is nonempty, the ionian entry scores 11/10, and the
bound applies to it. -/
theorem analyzeModeFromNotes_spec_witness :
    (uniquePitchClasses cMajorSounding ≠ []) ∧
    (({ mode := .ionian, score := 11/10 } : ModeScore) ∈
        modeScoresFor cMajorSounding (some .C)) ∧
    (({ mode := .ionian, score := 11/10 } : ModeScore).score ≤ 11/10) :=
  ⟨by decide,
   analyzeModeFromNotes_spec.2.2.2.2.2.2,
   analyzeModeFromNotes_spec.2.2.2.2.1 cMajorSounding (some .C) (by decide) _
     analyzeModeFromNotes_spec.2.2.2.2.2.2⟩

/-- Witness for C3 (amended) at ionian degree 5. -/
theorem buildChordFromDegree_spec_witness :
    (buildChordFromDegree .C .ionian 5 4).isSome ↔
      (1 ≤ (5 : Int) ∧ (5 : Int) ≤ 7 ∧
        ¬(ModeName.ionian = .locrian ∧ 6 ≤ (5 : Int))) :=
  buildChordFromDegree_spec .C .ionian 5 4

/-- Witness for C9 (amended) at the `a` mapping (home-row root) and the `i`
mapping (the +2 offset). -/
theorem keyboardLayout_spec_witness :
    (({ key := "a", scaleDegree := 1, octaveOffset := 0,
        label := "Root (Main)" } : ScaleDegreeMapping) ∈
          SCALE_DEGREE_LAYOUT.mappings) ∧
    (1 ≤ ({ key := "a", scaleDegree := 1, octaveOffset := 0,
            label := "Root (Main)" } : ScaleDegreeMapping).scaleDegree ∧
      ({ key := "a", scaleDegree := 1, octaveOffset := 0,
         label := "Root (Main)" } : ScaleDegreeMapping).scaleDegree ≤ 7) ∧
    (SCALE_DEGREE_LAYOUT.toggleKey ≠
        ({ key := "a", scaleDegree := 1, octaveOffset := 0,
           label := "Root (Main)" } : ScaleDegreeMapping).key ∧
      SCALE_DEGREE_LAYOUT.sustainKey ≠
        ({ key := "a", scaleDegree := 1, octaveOffset := 0,
           label := "Root (Main)" } : ScaleDegreeMapping).key ∧
      SCALE_DEGREE_LAYOUT.helpKey ≠
        ({ key := "a", scaleDegree := 1, octaveOffset := 0,
           label := "Root (Main)" } : ScaleDegreeMapping).key) ∧
    (({ key := "i", scaleDegree := 1, octaveOffset := 2,
        label := "Octave (High)" } : ScaleDegreeMapping) ∈
          SCALE_DEGREE_LAYOUT.mappings ∧
      ({ key := "i", scaleDegree := 1, octaveOffset := 2,
         label := "Octave (High)" } : ScaleDegreeMapping).key = "i") :=
  ⟨by decide,
   keyboardLayout_spec.1 _ (by decide),
   keyboardLayout_spec.2.2.2 _ (by decide),
   by decide,
   keyboardLayout_spec.2.2.1 _ (by decide) (by decide)⟩

end ModalExplorer
